import Mathlib

/-!
Verification development for the credential-vault, cipher-codec, connector-registry and
async-call-scheduler core of the hummingbot client.

Shallow embedding conventions:
* byte strings are lists of naturals (`Bytes`);
* the cryptographic primitives (PBKDF2, scrypt, keccak, AES-CTR) are external library
  functions; the development is parametrised over them by a `CryptoPrims` record, and an
  executable toy instance (`toyPrims`) is used for concrete evaluations;
* Python dictionaries are insertion-ordered association lists with `assoc_set` as the
  dict-assignment operation (replace the existing entry in place, else append);
* Python exceptions are the `PyError` inductive; fallible operations return `Except` or
  carry an `Option PyError` next to the mutated state when partial mutation must survive
  the exception (as it does for the class-level state in `Security`);
* object identity (needed for the aliasing behaviour of `Security.decrypted_value`) is
  modelled by an explicit heap mapping references to bundle values.
-/

/-! ## Association-list dictionaries -/

/-- Lookup in an insertion-ordered association list (Python dict access). -/
def assoc_find {α β : Type} [DecidableEq α] (k : α) : List (α × β) → Option β
  | [] => none
  | kv :: rest => if kv.1 = k then some kv.2 else assoc_find k rest

/-- Python dict assignment: replace the entry for the key in place, else append. -/
def assoc_set {α β : Type} [DecidableEq α] (l : List (α × β)) (k : α) (v : β) :
    List (α × β) :=
  match l with
  | [] => [(k, v)]
  | kv :: rest => if kv.1 = k then (k, v) :: rest else kv :: assoc_set rest k v

/-- Python dict.pop: remove the entry for the key (first occurrence). -/
def assoc_erase {α β : Type} [DecidableEq α] (k : α) : List (α × β) → List (α × β)
  | [] => []
  | kv :: rest => if kv.1 = k then rest else kv :: assoc_erase k rest

/-- Build a dict from a list of key/value pairs in order (Python dict comprehension:
on a key collision the later entry wins). -/
def dict_of_list {α β : Type} [DecidableEq α] (l : List (α × β)) : List (α × β) :=
  l.foldl (fun acc kv => assoc_set acc kv.1 kv.2) []

/-! ## Byte strings and Python errors -/

/-- Byte strings (`bytes` in the source) as lists of naturals. -/
abbrev Bytes := List Nat

/-- The Python exceptions raised by the embedded code. -/
inductive PyError where
  | valueError (msg : String)
  | keyError (key : String)
  | notImplementedError (msg : String)
  | exception (msg : String)
deriving DecidableEq

/-! ## Cipher codec (src/hummingbot/client/config/config_crypt.py)

The concrete cryptographic primitives live in the eth_keyfile / pycryptodome libraries;
the codec is parametrised over them.  Everything proved below holds for every
instantiation; concrete witnesses use the executable `toyPrims` instance. -/

/-- The external cryptographic primitives used by config_crypt.py, as imported from
eth_keyfile.keyfile: `_pbkdf2_hash(password, sha256, salt, iterations, dklen)`,
`_scrypt_hash(password, salt, buflen, r, p, n)`, `keccak`, `encrypt_aes_ctr` and its
inverse `decrypt_aes_ctr` used by the library decrypt path. -/
structure CryptoPrims where
  pbkdf2_hash : Bytes → Bytes → Nat → Nat → Bytes
  scrypt_hash : Bytes → Bytes → Nat → Nat → Nat → Nat → Bytes
  keccak : Bytes → Bytes
  encrypt_aes_ctr : Bytes → Bytes → Nat → Bytes
  decrypt_aes_ctr : Bytes → Bytes → Nat → Bytes

/-- eth_keyfile.keyfile.DKLEN: the derived key length is a fixed constant. -/
def DKLEN : Nat := 32

/-- eth_keyfile.keyfile.SCRYPT_R. -/
def SCRYPT_R : Nat := 1

/-- eth_keyfile.keyfile.SCRYPT_P. -/
def SCRYPT_P : Nat := 8

/-- eth_keyfile.keyfile.get_default_work_factor_for_kdf. -/
def get_default_work_factor_for_kdf (kdf : String) : Except PyError Nat :=
  if kdf = "pbkdf2" then .ok 1000000
  else if kdf = "scrypt" then .ok 262144
  else .error (.valueError ("Unsupported key derivation function: " ++ kdf))

/-- eth_keyfile.keyfile.big_endian_to_int. -/
def big_endian_to_int (bs : Bytes) : Nat :=
  bs.foldl (fun acc b => acc * 256 + b) 0

/-- The `kdf` / `kdfparams` fields of the v3 keyfile envelope.  The pbkdf2 variant
carries `c`, `dklen`, `salt` (its `prf` field is the constant hmac-sha256); the scrypt
variant carries `dklen`, `n`, `r`, `p`, `salt`. -/
inductive KdfParams where
  | pbkdf2 (c : Nat) (dklen : Nat) (salt : Bytes)
  | scrypt (dklen : Nat) (n : Nat) (r : Nat) (p : Nat) (salt : Bytes)
deriving DecidableEq

/-- The `crypto` member of the v3 keyfile JSON envelope built by
`_create_v3_keyfile_json` (config_crypt.py:138-151). -/
structure KeyfileCrypto where
  cipher : String
  iv : Nat
  ciphertext : Bytes
  kdf : KdfParams
  mac : Bytes
deriving DecidableEq

/-- The v3 keyfile JSON envelope (`crypto`, `version`; the constant `alias` field is
omitted as it carries no data). -/
structure Keyfile where
  crypto : KeyfileCrypto
  version : Nat
deriving DecidableEq

/-- Re-derivation of the encryption key from the payload's own KDF parameters, as done
by the library decrypt path (`_derive_pbkdf_key` / `_derive_scrypt_key`). -/
def derive_keyfile_key (P : CryptoPrims) (password : Bytes) : KdfParams → Bytes
  | .pbkdf2 c dklen salt => P.pbkdf2_hash password salt c dklen
  | .scrypt dklen n r p salt => P.scrypt_hash password salt n r p dklen

/-- config_crypt.py:90-151 `_create_v3_keyfile_json`.  The two fresh 16-byte random
values drawn inside the function (`salt` and the bytes hashed into `iv`) are passed as
explicit arguments `salt` and `iv_bytes`; `work_factor = None` is represented by
resolving the default before the call, exactly as lines 97-98 do. -/
def create_v3_keyfile_json (P : CryptoPrims) (message_to_encrypt password : Bytes)
    (salt iv_bytes : Bytes) (kdf : String) (work_factor : Nat) :
    Except PyError Keyfile :=
  if kdf = "pbkdf2" then
    let derived_key := P.pbkdf2_hash password salt work_factor DKLEN
    let kdfparams := KdfParams.pbkdf2 work_factor DKLEN salt
    let iv := big_endian_to_int iv_bytes
    let encrypt_key := derived_key.take 16
    let ciphertext := P.encrypt_aes_ctr message_to_encrypt encrypt_key iv
    let mac := P.keccak (((derived_key.drop 16).take 16) ++ ciphertext)
    .ok { crypto := { cipher := "aes-128-ctr", iv := iv, ciphertext := ciphertext,
                      kdf := kdfparams, mac := mac },
          version := 3 }
  else if kdf = "scrypt" then
    let derived_key := P.scrypt_hash password salt work_factor SCRYPT_R SCRYPT_P DKLEN
    let kdfparams := KdfParams.scrypt DKLEN work_factor SCRYPT_R SCRYPT_P salt
    let iv := big_endian_to_int iv_bytes
    let encrypt_key := derived_key.take 16
    let ciphertext := P.encrypt_aes_ctr message_to_encrypt encrypt_key iv
    let mac := P.keccak (((derived_key.drop 16).take 16) ++ ciphertext)
    .ok { crypto := { cipher := "aes-128-ctr", iv := iv, ciphertext := ciphertext,
                      kdf := kdfparams, mac := mac },
          version := 3 }
  else
    .error (.notImplementedError ("KDF not implemented: " ++ kdf))

/-- Modelled from the spec: the `Account.decrypt` call of config_crypt.py:65 is the
eth_account / eth_keyfile v3 decrypt path, which is not part of this repository.  Per
the spec it re-derives the key using the payload's own KDF parameters, recomputes the
MAC over (second half of derived key ++ ciphertext), signals an integrity failure
(ValueError with message "MAC mismatch") if the recomputed MAC does not byte-for-byte
equal the stored MAC, and only then decrypts and returns plaintext; a keyfile whose
version is not 3 is rejected before any of that. -/
def account_decrypt (P : CryptoPrims) (keyfile : Keyfile) (password : Bytes) :
    Except String Bytes :=
  if keyfile.version ≠ 3 then
    .error "Not yet supported keyfile version."
  else
    let derived_key := derive_keyfile_key P password keyfile.crypto.kdf
    let ciphertext := keyfile.crypto.ciphertext
    let computed_mac := P.keccak (((derived_key.drop 16).take 16) ++ ciphertext)
    if computed_mac = keyfile.crypto.mac then
      .ok (P.decrypt_aes_ctr ciphertext (derived_key.take 16) keyfile.crypto.iv)
    else
      .error "MAC mismatch"

/-- An encrypted secret value as stored on disk: the hex-encoded JSON rendering of a
keyfile envelope, or a string that fails hex/JSON decoding (the ValueError message such
a string produces is carried alongside). -/
inductive StoredValue where
  | well_formed (kf : Keyfile)
  | malformed (msg : String)
deriving DecidableEq

/-- config_crypt.py:28-46 BaseSecretsManager and its ETHKeyFileSecretManger subclass:
the state is the (possibly absent) password supplied at login time. -/
structure ETHKeyFileSecretManger where
  password : Option Bytes
deriving DecidableEq

/-- config_crypt.py:24 PASSWORD_VERIFICATION_WORD = "HummingBot" (UTF-8 bytes). -/
def PASSWORD_VERIFICATION_WORD : Bytes :=
  [72, 117, 109, 109, 105, 110, 103, 66, 111, 116]

/-- config_crypt.py:49-59 ETHKeyFileSecretManger.encrypt_secret_value.  The two fresh
random 16-byte draws of `_create_v3_keyfile_json` are explicit arguments; the
`json.dumps` + `hexlify` serialisation is the `StoredValue.well_formed` injection. -/
def encrypt_secret_value (P : CryptoPrims) (m : ETHKeyFileSecretManger)
    (attr : String) (value : Bytes) (salt iv_bytes : Bytes) :
    Except PyError StoredValue :=
  match m.password with
  | none => .error (.valueError
      ("Could not encrypt secret attribute " ++ attr ++
       " because no password was provided."))
  | some password_bytes =>
    match get_default_work_factor_for_kdf "pbkdf2" with
    | .error e => .error e
    | .ok work_factor =>
      match create_v3_keyfile_json P value password_bytes salt iv_bytes "pbkdf2"
          work_factor with
      | .ok keyfile_json => .ok (.well_formed keyfile_json)
      | .error e => .error e

/-- config_crypt.py:61-66 ETHKeyFileSecretManger.decrypt_secret_value.  The
`binascii.unhexlify` / JSON parse of the stored string is the match on `StoredValue`
(a malformed string raises its ValueError); `Account.decrypt` errors are ValueError. -/
def decrypt_secret_value (P : CryptoPrims) (m : ETHKeyFileSecretManger)
    (attr : String) (value : StoredValue) : Except PyError Bytes :=
  match m.password with
  | none => .error (.valueError
      ("Could not decrypt secret attribute " ++ attr ++
       " because no password was provided."))
  | some password_bytes =>
    match value with
    | .malformed msg => .error (.valueError msg)
    | .well_formed kf =>
      match account_decrypt P kf password_bytes with
      | .ok decrypted_value => .ok decrypted_value
      | .error msg => .error (.valueError msg)

/-- config_crypt.py:76-87 validate_password.  The content of the password-verification
file is the `encrypted_word` argument.  A ValueError whose message is exactly
"MAC mismatch" is swallowed (leaving `valid = False`); any other ValueError is
re-raised. -/
def validate_password (P : CryptoPrims) (m : ETHKeyFileSecretManger)
    (encrypted_word : StoredValue) : Except PyError Bool :=
  match decrypt_secret_value P m "HummingBot" encrypted_word with
  | .ok decrypted_word => .ok (decrypted_word = PASSWORD_VERIFICATION_WORD)
  | .error (.valueError msg) =>
      if msg = "MAC mismatch" then .ok false else .error (.valueError msg)
  | .error e => .error e

/-! ## Credential vault (src/hummingbot/client/config/security.py)

The class-level state of `Security` is an explicit record.  Decrypted connector config
objects (`ClientConfigAdapter`) are mutable Python objects: the cache maps connector
names to heap references, and a separate heap maps references to bundle contents, so
that sharing of references (aliasing) is observable exactly as in the source. -/

/-- The decrypted secret bundle of one connector: named credential fields. -/
abbrev Bundle := List (String × String)

/-- A heap of decrypted config objects: reference → bundle contents, plus the next
fresh reference. -/
structure Heap where
  store : List (Nat × Bundle)
  next : Nat
deriving DecidableEq

/-- Dereference a bundle object. -/
def heap_get (h : Heap) (r : Nat) : Option Bundle :=
  assoc_find r h.store

/-- In-place mutation of a bundle object (what a caller holding the reference can do). -/
def heap_write (h : Heap) (r : Nat) (b : Bundle) : Heap :=
  { h with store := assoc_set h.store r b }

/-- security.py:21-30: the class-level state of `Security` — secrets_manager,
_secure_configs (connector name → config object reference) and the _decryption_done
event (its set/unset flag). -/
structure SecurityState where
  secrets_manager : Option ETHKeyFileSecretManger
  secure_configs : List (String × Nat)
  decryption_done : Bool
deriving DecidableEq

deriving instance DecidableEq for Except

/-- Modelled from the spec: `list_connector_configs` and
`load_connector_config_map_from_file` (config_helpers.py, not under src/) enumerate the
persisted connector secret files and decrypt one file with the active key manager; per
the spec the decryption of a file can signal an integrity failure.  A file is its
connector name (derived by `connector_name_from_file`) together with the outcome of
loading/decrypting it. -/
structure ConnectorFile where
  connector_name : String
  load_result : Except PyError Bundle
deriving DecidableEq

/-- security.py:67-70 Security.decrypt_connector_config: store the loaded config object
under the connector's name (allocating the freshly built object on the heap). -/
def decrypt_connector_config (st : SecurityState) (h : Heap) (file : ConnectorFile) :
    Except PyError (SecurityState × Heap) :=
  match file.load_result with
  | .error e => .error e
  | .ok bundle =>
    let r := h.next
    .ok ({ st with secure_configs := assoc_set st.secure_configs file.connector_name r },
         { store := assoc_set h.store r bundle, next := h.next + 1 })

/-- The `for file in encrypted_files` loop of security.py:63-64.  An exception raised
while decrypting one file escapes the loop; the class-level mutations made for the
files already processed persist, so the loop returns the state at exit together with
the escaped exception, if any. -/
def decrypt_all_loop (files : List ConnectorFile) (st : SecurityState) (h : Heap) :
    SecurityState × Heap × Option PyError :=
  match files with
  | [] => (st, h, none)
  | file :: rest =>
    match decrypt_connector_config st h file with
    | .error e => (st, h, some e)
    | .ok (st2, h2) => decrypt_all_loop rest st2 h2

/-- security.py:57-65 Security.decrypt_all: clear the cache and the completion event,
decrypt every enumerated file, then set the completion event.  The third component is
the exception escaping `decrypt_all`, if any; the event is set only if the loop ran to
completion. -/
def decrypt_all (files : List ConnectorFile) (st : SecurityState) (h : Heap) :
    SecurityState × Heap × Option PyError :=
  let st0 := { st with secure_configs := [], decryption_done := false }
  match decrypt_all_loop files st0 h with
  | (st2, h2, none) => ({ st2 with decryption_done := true }, h2, none)
  | (st2, h2, some e) => (st2, h2, some e)

/-- The outcome of security.py:46-54 Security.login: the returned boolean, the state
after the call, and whether a `decrypt_all` batch job was scheduled on the shared
AsyncCallScheduler (with timeout_seconds=30). -/
structure LoginResult where
  result : Bool
  state : SecurityState
  scheduled_decrypt_all : Bool
deriving DecidableEq

/-- security.py:46-54 Security.login: if `validate_password` fails, return False
without touching any state; otherwise install the secrets manager, schedule the
asynchronous `decrypt_all` call, and return True.  An exception escaping
`validate_password` escapes `login`. -/
def login (P : CryptoPrims) (st : SecurityState) (secrets_manager : ETHKeyFileSecretManger)
    (stored_verification : StoredValue) : Except PyError LoginResult :=
  match validate_password P secrets_manager stored_verification with
  | .error e => .error e
  | .ok false => .ok { result := false, state := st, scheduled_decrypt_all := false }
  | .ok true =>
      .ok { result := true,
            state := { st with secrets_manager := some secrets_manager },
            scheduled_decrypt_all := true }

/-- security.py:91-93 Security.decrypted_value: `cls._secure_configs.get(key, None)` —
returns the stored reference itself. -/
def decrypted_value (st : SecurityState) (key : String) : Option Nat :=
  assoc_find key st.secure_configs

/-- security.py:95-97 Security.all_decrypted_values: `cls._secure_configs.copy()` — a
fresh mapping holding the same bundle references. -/
def all_decrypted_values (st : SecurityState) : List (String × Nat) :=
  st.secure_configs

/-- The bundle contents the vault reports for a connector: dereference of
`decrypted_value` through the heap. -/
def secrets_for_value (st : SecurityState) (h : Heap) (key : String) : Option Bundle :=
  match decrypted_value st key with
  | none => none
  | some r => heap_get h r

/-- The on-disk connector secret files, as the set of connector names that have one. -/
structure Disk where
  files : List String
deriving DecidableEq

/-- security.py:80-85 Security.remove_secure_config: `file_path.unlink(missing_ok=True)`
(no error when the file is already absent), then `reset_connector_hb_config` (updates
an external registry, no vault state), then `cls._secure_configs.pop(connector_name)` —
`pop` with no default raises KeyError when the entry is absent, after the file has
already been deleted. -/
def remove_secure_config (d : Disk) (st : SecurityState) (connector_name : String) :
    Disk × SecurityState × Option PyError :=
  let d2 : Disk := { files := d.files.filter (fun n => n ≠ connector_name) }
  match assoc_find connector_name st.secure_configs with
  | some _ =>
      (d2, { st with secure_configs := assoc_erase connector_name st.secure_configs },
       none)
  | none => (d2, st, some (.keyError connector_name))

/-! ## Async call scheduler (src/hummingbot/core/utils/async_call_scheduler.py)

The dispatch loop `_coro_scheduler` is embedded as a function over the queue of
submitted items.  The result of awaiting one item's coroutine under its timeout
(`async with timeout(timeout_seconds): await coro`) is part of the item: a value, a
timeout, an ordinary exception, or a cancellation of the scheduler task itself. -/

/-- The outcome of awaiting a submitted coroutine under its timeout window. -/
inductive CoroOutcome where
  | success (v : Nat)
  | timed_out
  | failed (msg : String)
  | cancelled
deriving DecidableEq

/-- The failure a caller-visible future can be resolved with: the asyncio.TimeoutError
raised by the expired timeout context, or an ordinary exception. -/
inductive SchedExc where
  | timeoutError
  | generic (msg : String)
deriving DecidableEq

/-- The lifecycle of an asyncio.Future handed back by `schedule_async_call`. -/
inductive FutureState where
  | pending
  | resolved (v : Nat)
  | failedWith (e : SchedExc)
  | cancelledFut
deriving DecidableEq

/-- async_call_scheduler.py:14-18 AsyncCallSchedulerItem: the future (by identifier),
the coroutine (by its outcome under the item's timeout), the timeout and the
diagnostic label. -/
structure AsyncCallSchedulerItem where
  future : Nat
  outcome : CoroOutcome
  timeout_seconds : Nat
  app_warning_msg : String
deriving DecidableEq

/-- The map from future identifiers to future states. -/
abbrev Futures := List (Nat × FutureState)

/-- Resolve a future if it is still pending; `set_result` / `set_exception` on a future
that is already done raises InvalidStateError, which the loop swallows
(async_call_scheduler.py:91-93 and 98-101), leaving the future unchanged. -/
def set_future (fs : Futures) (fid : Nat) (s : FutureState) : Futures :=
  match assoc_find fid fs with
  | some .pending => assoc_set fs fid s
  | _ => fs

/-- One iteration body of `_coro_scheduler` (async_call_scheduler.py:79-108) on a
dequeued item: resolve the future from the outcome and report whether the loop
continues.  A successful await sets the result; asyncio.TimeoutError from the expired
timeout context and every other ordinary exception are caught by `except Exception`
and stored on the future via `set_exception`; asyncio.CancelledError cancels the
future and re-raises, ending the loop. -/
def process_item (fs : Futures) (item : AsyncCallSchedulerItem) : Futures × Bool :=
  match item.outcome with
  | .success v => (set_future fs item.future (.resolved v), true)
  | .timed_out => (set_future fs item.future (.failedWith .timeoutError), true)
  | .failed msg => (set_future fs item.future (.failedWith (.generic msg)), true)
  | .cancelled => (set_future fs item.future .cancelledFut, false)

/-- The dispatch loop `_coro_scheduler` run over a queue of submitted items in FIFO
order: process one item, sleep the fixed interval, dequeue the next; stop only when
the scheduler task itself is cancelled. -/
def coro_scheduler (queue : List AsyncCallSchedulerItem) (fs : Futures) : Futures :=
  match queue with
  | [] => fs
  | item :: rest =>
    match process_item fs item with
    | (fs2, true) => coro_scheduler rest fs2
    | (fs2, false) => fs2

/-! ## Connector registry (src/hummingbot/client/settings.py) -/

/-- settings.py:68-81 ConnectorType. -/
inductive ConnectorType where
  | AMM
  | AMM_LP
  | AMM_Perpetual
  | CLOB_SPOT
  | CLOB_PERP
  | Connector
  | Exchange
  | Derivative
deriving DecidableEq

/-- Exact decimal numbers (Python decimal.Decimal as produced by the fee validation):
value = mant / 10 ^ exp.  Division by 100 is exact and shifts the exponent. -/
structure Dec where
  mant : Int
  exp : Nat
deriving DecidableEq

/-- Division of an exact decimal by Decimal("100"). -/
def Dec.div100 (d : Dec) : Dec :=
  { mant := d.mant, exp := d.exp + 2 }

/-- Modelled from the spec: TradeFeeSchema (hummingbot/core/data_type/trade_fee.py is
not under src/) — the fee schema as percent-fee-decimal fields; only the maker/taker
percent fee decimals are set by the registry's validation (settings.py:605-621), the
remaining fields keep their defaults and are omitted. -/
structure TradeFeeSchema where
  maker_percent_fee_decimal : Dec
  taker_percent_fee_decimal : Dec
deriving DecidableEq

/-- The `DEFAULT_FEES`-style declaration a connector util module can carry: either a
legacy two-element numeric pair [maker, taker] (percent units) or an already-built
TradeFeeSchema. -/
inductive FeeSetting where
  | legacy (maker taker : Dec)
  | schema (s : TradeFeeSchema)
deriving DecidableEq

/-- settings.py:605-621 AllConnectorSettings._validate_trade_fee_schema: a legacy
two-element numeric pair is converted into percent-fee-decimal fields by dividing by
100 (an absent declaration yields zero fees); an already-built schema passes through.
The exchange_name argument does not influence the result. -/
def validate_trade_fee_schema (exchange_name : String)
    (trade_fee_schema : Option FeeSetting) : TradeFeeSchema :=
  match trade_fee_schema with
  | some (.schema s) => s
  | some (.legacy maker taker) =>
      { maker_percent_fee_decimal := maker.div100,
        taker_percent_fee_decimal := taker.div100 }
  | none =>
      { maker_percent_fee_decimal := { mant := 0, exp := 0 },
        taker_percent_fee_decimal := { mant := 0, exp := 0 } }

/-- The `KEYS`-style config map object of a connector util module, as far as the
registry inspects it: whether it is a legacy plain dict, and for model-based maps
whether the `receive_connector_configuration` field exists and is set
(settings.py:316-321). -/
inductive ConfigKeysVal where
  | legacyDict (entries : List (String × String))
  | configModel (has_receive_connector_configuration : Bool)
      (receive_connector_configuration : Bool)
deriving DecidableEq

/-- settings.py:178-209 ConnectorSetting (NamedTuple). -/
structure ConnectorSetting where
  name : String
  type : ConnectorType
  example_pair : String
  centralised : Bool
  use_ethereum_wallet : Bool
  trade_fee_schema : TradeFeeSchema
  config_keys : Option ConfigKeysVal
  is_sub_domain : Bool
  parent_name : Option String
  domain_parameter : Option String
  use_eth_gas_lookup : Bool
deriving DecidableEq

/-- settings.py:211-213 ConnectorSetting.uses_gateway_generic_connector. -/
def uses_gateway_generic_connector (cs : ConnectorSetting) : Bool :=
  ¬ (cs.type = ConnectorType.Exchange ∨ cs.type = ConnectorType.Derivative ∨
     cs.type = ConnectorType.Connector)

/-- The values that appear in a connector construction-parameter bundle. -/
inductive PVal where
  | secret (s : String)
  | pairs (l : List String)
  | flag (b : Bool)
  | clientConfigMap
  | domainVal (o : Option String)
  | connectorConfiguration
deriving DecidableEq

/-- A construction-parameter bundle (a Python dict). -/
abbrev Params := List (String × PVal)

/-- Replace every non-overlapping occurrence of `pat` in `s`, left to right, skipping
past each replacement (Python str.replace for a nonempty pattern), on character lists;
the first argument is recursion fuel, instantiated with the length of `s`. -/
def str_replace_aux (pat rep : List Char) : Nat → List Char → List Char
  | 0, s => s
  | _ + 1, [] => []
  | fuel + 1, c :: rest =>
    if pat.isPrefixOf (c :: rest) then
      rep ++ str_replace_aux pat rep fuel (List.drop pat.length (c :: rest))
    else
      c :: str_replace_aux pat rep fuel rest

/-- settings.py:316-322: a config map that declares and sets
`receive_connector_configuration` receives the raw configuration object as an
additional parameter. -/
def add_connector_configuration (config_keys : Option ConfigKeysVal)
    (params : Params) : Params :=
  match config_keys with
  | some (.configModel true true) =>
      assoc_set params "connector_configuration" PVal.connectorConfiguration
  | _ => params

/-- Python str.replace for a nonempty pattern (claims below require the pattern, a
connector name, to be nonempty; Python treats an empty pattern differently). -/
def str_replace (s pat rep : String) : String :=
  if pat.data.isEmpty then s
  else { data := str_replace_aux pat.data rep.data s.data.length s.data }

/-- settings.py:273-324 ConnectorSetting.conn_init_parameters for the non-gateway
branches.  The gateway branches consult the external on-chain connection-spec store
(an external collaborator per the spec) and are outside this embedding, so the
function returns none for them; it also returns none for the TypeError a sub-domain
setting with parent_name = None would raise in `k.replace(self.name,
self.parent_name)`.  For non-sub-domain settings the parameters start as the api_keys
bundle; for sub-domain settings each api_keys key has the sub-domain name replaced by
the parent name (dict comprehension) and a `domain` parameter is added; then
trading_pairs, trading_required and client_config_map are added, and for a config map
that requests configuration passthrough (settings.py:316-322, factored out as
`add_connector_configuration`) the configuration object itself. -/
def conn_init_parameters (cs : ConnectorSetting) (trading_pairs : List String)
    (trading_required : Bool) (api_keys : Params) : Option Params :=
  if uses_gateway_generic_connector cs then none
  else
    let base : Option Params :=
      if ¬ cs.is_sub_domain then some api_keys
      else
        match cs.parent_name with
        | none => none
        | some parent =>
          let renamed := dict_of_list
            (api_keys.map (fun kv => (str_replace kv.1 cs.name parent, kv.2)))
          some (assoc_set renamed "domain" (PVal.domainVal cs.domain_parameter))
    match base with
    | none => none
    | some params0 =>
      let params1 := assoc_set params0 "trading_pairs" (PVal.pairs trading_pairs)
      let params2 := assoc_set params1 "trading_required" (PVal.flag trading_required)
      let params3 := assoc_set params2 "client_config_map" PVal.clientConfigMap
      some (add_connector_configuration cs.config_keys params3)

/-- The attributes of a connector util module (<name>_utils.py) read by the discovery
pass (settings.py:438-473).  `getattr` with a default is a total field; the
OTHER_DOMAINS_* attributes are indexed by sub-domain name and a missing entry raises
(getattr with no default / dict indexing). -/
structure UtilModule where
  DEFAULT_FEES : Option FeeSetting
  CENTRALIZED : Bool
  EXAMPLE_PAIR : String
  USE_ETHEREUM_WALLET : Bool
  KEYS : Option ConfigKeysVal
  USE_ETH_GAS_LOOKUP : Bool
  OTHER_DOMAINS : List String
  OTHER_DOMAINS_DEFAULT_FEES : List (String × FeeSetting)
  OTHER_DOMAINS_EXAMPLE_PAIR : List (String × String)
  OTHER_DOMAINS_KEYS : List (String × Option ConfigKeysVal)
  OTHER_DOMAINS_PARAMETER : List (String × String)

/-- The registry being built: connector name → ConnectorSetting. -/
abbrev SettingsMap := List (String × ConnectorSetting)

/-- The `for domain in other_domains` loop of settings.py:457-473: for each declared
sub-domain, validate that domain's mandatory fee declaration, look the parent entry up
in the registry being built, and add an independent entry that takes type, centralised,
use_ethereum_wallet, parent_name and use_eth_gas_lookup from the parent and
example_pair, config_keys, domain_parameter and fees from the parent module's
per-domain declarations. -/
def add_other_domains (u : UtilModule) (connector_name : String) :
    List String → SettingsMap → Except PyError SettingsMap
  | [], settings => .ok settings
  | domain :: rest, settings =>
    match assoc_find domain u.OTHER_DOMAINS_DEFAULT_FEES with
    | none => .error (.keyError domain)
    | some trade_fee_settings =>
      let trade_fee_schema := validate_trade_fee_schema domain (some trade_fee_settings)
      match assoc_find connector_name settings with
      | none => .error (.keyError connector_name)
      | some parent =>
        match assoc_find domain u.OTHER_DOMAINS_EXAMPLE_PAIR,
              assoc_find domain u.OTHER_DOMAINS_KEYS,
              assoc_find domain u.OTHER_DOMAINS_PARAMETER with
        | some example_pair, some keys, some domain_param =>
          let sub : ConnectorSetting :=
            { name := domain,
              type := parent.type,
              centralised := parent.centralised,
              example_pair := example_pair,
              use_ethereum_wallet := parent.use_ethereum_wallet,
              trade_fee_schema := trade_fee_schema,
              config_keys := keys,
              is_sub_domain := true,
              parent_name := some parent.name,
              domain_parameter := some domain_param,
              use_eth_gas_lookup := parent.use_eth_gas_lookup }
          add_other_domains u connector_name rest (assoc_set settings domain sub)
        | _, _, _ => .error (.keyError domain)

/-- The per-connector-directory body of AllConnectorSettings.create_connector_settings
(settings.py:425-473): reject a duplicate connector name, build the parent entry from
the util module's attributes with the validated fee schema, then expand the declared
other domains. -/
def create_settings_for_module (settings : SettingsMap) (type_dir : ConnectorType)
    (connector_name : String) (u : UtilModule) : Except PyError SettingsMap :=
  if (assoc_find connector_name settings).isSome then
    .error (.exception ("Multiple connectors with the same " ++ connector_name ++
                        " name."))
  else
    let trade_fee_schema := validate_trade_fee_schema connector_name u.DEFAULT_FEES
    let parent_setting : ConnectorSetting :=
      { name := connector_name,
        type := type_dir,
        centralised := u.CENTRALIZED,
        example_pair := u.EXAMPLE_PAIR,
        use_ethereum_wallet := u.USE_ETHEREUM_WALLET,
        trade_fee_schema := trade_fee_schema,
        config_keys := u.KEYS,
        is_sub_domain := false,
        parent_name := none,
        domain_parameter := none,
        use_eth_gas_lookup := u.USE_ETH_GAS_LOOKUP }
    add_other_domains u connector_name u.OTHER_DOMAINS
      (assoc_set settings connector_name parent_setting)

/-! ## Executable toy instantiation of the cryptographic primitives

Used only to evaluate the parametrised definitions on concrete inputs.  The stream
cipher adds/subtracts a keystream value derived from key and counter, so decryption
inverts encryption; the hash mixes every byte with its position. -/

/-- A toy keystream value from key bytes and counter. -/
def toy_stream (key : Bytes) (iv : Nat) : Nat :=
  key.foldl (fun a b => a + b) iv

/-- The toy primitives: executable stand-ins for PBKDF2/scrypt/keccak/AES-CTR. -/
def toyPrims : CryptoPrims where
  pbkdf2_hash := fun password salt iterations dklen =>
    (List.range dklen).map
      (fun i => (password.foldl (fun a b => a + b * 3) 0 +
                 salt.foldl (fun a b => a + b * 5) 0 + iterations + i * 7) % 251)
  scrypt_hash := fun password salt n r p buflen =>
    (List.range buflen).map
      (fun i => (password.foldl (fun a b => a + b * 3) 0 +
                 salt.foldl (fun a b => a + b * 5) 0 + n + r + p + i * 11) % 251)
  keccak := fun bs =>
    (List.range 32).map
      (fun i => (bs.foldl (fun a b => a * 2 + b + 1) 0 + i * 13) % 251)
  encrypt_aes_ctr := fun message key iv => message.map (fun b => b + toy_stream key iv)
  decrypt_aes_ctr := fun ciphertext key iv =>
    ciphertext.map (fun b => b - toy_stream key iv)

/-! ## Concrete fixtures for evaluating the definitions -/

/-- A v3 envelope whose stored MAC does not match the MAC recomputed by the toy
primitives (a tampered payload / wrong-password decryption). -/
def tamperedKeyfile : Keyfile :=
  { crypto := { cipher := "aes-128-ctr", iv := 6, ciphertext := [1, 2, 3],
                kdf := .pbkdf2 1000000 32 [5], mac := [0] },
    version := 3 }

/-- A connector secret file that decrypts successfully. -/
def fileBinance : ConnectorFile :=
  { connector_name := "binance", load_result := .ok [("binance_api_key", "A")] }

/-- A connector secret file whose decryption signals an integrity failure. -/
def fileKrakenBad : ConnectorFile :=
  { connector_name := "kraken", load_result := .error (.valueError "MAC mismatch") }

/-- A second good connector secret file, enumerated after the failing one. -/
def fileOkx : ConnectorFile :=
  { connector_name := "okx", load_result := .ok [("okx_api_key", "C")] }

/-- A vault state left by a previous complete pass. -/
def previousPassState : SecurityState :=
  { secrets_manager := none, secure_configs := [("old", 5)], decryption_done := true }

/-- The heap accompanying `previousPassState`. -/
def previousPassHeap : Heap :=
  { store := [(5, [("old_api_key", "O")])], next := 6 }

/-- A vault state whose cache holds one connector bundle at reference 0. -/
def oneEntryState : SecurityState :=
  { secrets_manager := none, secure_configs := [("binance", 0)],
    decryption_done := true }

/-- The heap accompanying `oneEntryState`. -/
def oneEntryHeap : Heap :=
  { store := [(0, [("binance_api_key", "AAA")])], next := 1 }

/-- A disk that holds a secret file only for binance. -/
def diskBinanceOnly : Disk := { files := ["binance"] }

/-- A sub-domain connector setting as discovery builds it for binance_us. -/
def binanceUsSetting : ConnectorSetting :=
  { name := "binance_us",
    type := .Exchange,
    example_pair := "BTC-USD",
    centralised := true,
    use_ethereum_wallet := false,
    trade_fee_schema := { maker_percent_fee_decimal := { mant := 1, exp := 3 },
                          taker_percent_fee_decimal := { mant := 1, exp := 3 } },
    config_keys := none,
    is_sub_domain := true,
    parent_name := some "binance",
    domain_parameter := some "us",
    use_eth_gas_lookup := false }

/-- A util module declaring one other domain whose per-domain fee declaration equals
the module's own DEFAULT_FEES (no fee override). -/
def binanceUtilModule : UtilModule :=
  { DEFAULT_FEES := some (.legacy { mant := 1, exp := 1 } { mant := 1, exp := 1 }),
    CENTRALIZED := true,
    EXAMPLE_PAIR := "BTC-USDT",
    USE_ETHEREUM_WALLET := false,
    KEYS := some (.configModel false false),
    USE_ETH_GAS_LOOKUP := false,
    OTHER_DOMAINS := ["binance_us"],
    OTHER_DOMAINS_DEFAULT_FEES :=
      [("binance_us", .legacy { mant := 1, exp := 1 } { mant := 1, exp := 1 })],
    OTHER_DOMAINS_EXAMPLE_PAIR := [("binance_us", "BTC-USD")],
    OTHER_DOMAINS_KEYS := [("binance_us", some (.configModel false false))],
    OTHER_DOMAINS_PARAMETER := [("binance_us", "us")] }

/-! ## Association-list lemmas -/

theorem assoc_find_set_self {α β : Type} [DecidableEq α] (l : List (α × β)) (k : α)
    (v : β) : assoc_find k (assoc_set l k v) = some v := by
  induction l with
  | nil => simp [assoc_set, assoc_find]
  | cons kv rest ih =>
    by_cases h : kv.1 = k
    · simp [assoc_set, assoc_find, h]
    · simp [assoc_set, assoc_find, h, ih]

theorem assoc_find_set_ne {α β : Type} [DecidableEq α] (l : List (α × β)) (k k' : α)
    (v : β) (h : k' ≠ k) : assoc_find k' (assoc_set l k v) = assoc_find k' l := by
  have h' : k ≠ k' := Ne.symm h
  induction l with
  | nil => simp [assoc_set, assoc_find, h']
  | cons kv rest ih =>
    by_cases hk : kv.1 = k
    · simp [assoc_set, assoc_find, hk, h']
    · simp [assoc_set, assoc_find, hk, ih]

theorem assoc_find_eq_none {α β : Type} [DecidableEq α] (l : List (α × β)) (k : α)
    (h : k ∉ l.map Prod.fst) : assoc_find k l = none := by
  induction l with
  | nil => simp [assoc_find]
  | cons kv rest ih =>
    simp only [List.map_cons, List.mem_cons, not_or] at h
    have h1 : ¬ kv.1 = k := fun he => h.1 he.symm
    simp [assoc_find, h1, ih h.2]

theorem assoc_find_erase_self {α β : Type} [DecidableEq α] (l : List (α × β)) (k : α)
    (hnd : (l.map Prod.fst).Nodup) : assoc_find k (assoc_erase k l) = none := by
  induction l with
  | nil => simp [assoc_erase, assoc_find]
  | cons kv rest ih =>
    simp only [List.map_cons, List.nodup_cons] at hnd
    by_cases h : kv.1 = k
    · have : k ∉ rest.map Prod.fst := h ▸ hnd.1
      simp [assoc_erase, h, assoc_find_eq_none rest k this]
    · simp [assoc_erase, assoc_find, h, ih hnd.2]

/-! ## Claims about the cipher codec -/

/-- C2: decrypt verifies the MAC before producing any plaintext: for every v3
EncryptedPayload whose stored MAC does not byte-for-byte equal the MAC recomputed over
(second half of derived key ++ ciphertext), decrypt signals an integrity failure
("MAC mismatch") and never returns plaintext — both at the library decrypt level and
through `decrypt_secret_value`. -/
theorem claim_C2 (P : CryptoPrims) (kf : Keyfile) (password : Bytes)
    (hv : kf.version = 3)
    (hmac : P.keccak ((((derive_keyfile_key P password kf.crypto.kdf).drop 16).take 16)
              ++ kf.crypto.ciphertext) ≠ kf.crypto.mac) :
    account_decrypt P kf password = .error "MAC mismatch" ∧
    (∀ plaintext, account_decrypt P kf password ≠ .ok plaintext) ∧
    (∀ attr, decrypt_secret_value P { password := some password } attr
        (.well_formed kf) = .error (.valueError "MAC mismatch")) := by
  have hdec : account_decrypt P kf password = .error "MAC mismatch" := by
    simp [account_decrypt, hv, hmac]
  refine ⟨hdec, ?_, ?_⟩
  · intro plaintext
    simp [hdec]
  · intro attr
    simp [decrypt_secret_value, hdec]

/-- Witness for C2 at a concrete tampered envelope under the toy primitives. -/
theorem claim_C2_witness :
    tamperedKeyfile.version = 3 ∧
    toyPrims.keccak ((((derive_keyfile_key toyPrims [7]
        tamperedKeyfile.crypto.kdf).drop 16).take 16)
      ++ tamperedKeyfile.crypto.ciphertext) ≠ tamperedKeyfile.crypto.mac ∧
    account_decrypt toyPrims tamperedKeyfile [7] = .error "MAC mismatch" :=
  ⟨by decide, by decide, (claim_C2 toyPrims tamperedKeyfile [7] (by decide)
    (by decide)).1⟩

/-- C4: a login whose password fails verification (integrity failure on the
verification record, or decrypted word differing from the verification literal)
returns False with the vault state unchanged — no secrets manager installed, no cache
touched, no decrypt_all scheduled — revealing nothing beyond the boolean. -/
theorem claim_C4 (P : CryptoPrims) (st : SecurityState)
    (m : ETHKeyFileSecretManger) (stored : StoredValue)
    (hval : validate_password P m stored = .ok false) :
    login P st m stored =
      .ok { result := false, state := st, scheduled_decrypt_all := false } := by
  simp [login, hval]

/-- Witness for C4: logging in against a tampered verification record under the toy
primitives fails and leaves a concrete state unchanged. -/
theorem claim_C4_witness :
    validate_password toyPrims { password := some [7] }
      (.well_formed tamperedKeyfile) = .ok false ∧
    login toyPrims previousPassState { password := some [7] }
      (.well_formed tamperedKeyfile) =
      .ok { result := false, state := previousPassState,
            scheduled_decrypt_all := false } :=
  ⟨by decide, claim_C4 toyPrims previousPassState { password := some [7] }
    (.well_formed tamperedKeyfile) (by decide)⟩

/-! ## Claims about the async call scheduler -/

/-- C7: when a submitted item times out or raises, the dispatch loop resolves that
item's future with the corresponding failure — a distinguishable timeout failure for
timeouts — and keeps running, going on to dequeue and process the rest of the queue
(the loop over the remaining items is exactly the loop started from the updated
future map). -/
theorem claim_C7 (fid t : Nat) (w msg : String)
    (rest : List AsyncCallSchedulerItem) (fs : Futures) :
    coro_scheduler ({ future := fid, outcome := .timed_out, timeout_seconds := t,
                      app_warning_msg := w } :: rest) fs =
      coro_scheduler rest (set_future fs fid (.failedWith .timeoutError)) ∧
    coro_scheduler ({ future := fid, outcome := .failed msg, timeout_seconds := t,
                      app_warning_msg := w } :: rest) fs =
      coro_scheduler rest (set_future fs fid (.failedWith (.generic msg))) ∧
    SchedExc.timeoutError ≠ SchedExc.generic msg := by
  refine ⟨rfl, rfl, ?_⟩
  intro h
  cases h

/-- C10: a ValueError from decrypting the password-verification record whose message
is not exactly "MAC mismatch" is re-raised by validate_password instead of being
reported as False, so login itself raises instead of returning a boolean. -/
theorem claim_C10 (P : CryptoPrims) (m : ETHKeyFileSecretManger)
    (stored : StoredValue) (msg : String)
    (hmsg : msg ≠ "MAC mismatch")
    (hdec : decrypt_secret_value P m "HummingBot" stored = .error (.valueError msg)) :
    validate_password P m stored = .error (.valueError msg) ∧
    ∀ st, login P st m stored = .error (.valueError msg) := by
  have hval : validate_password P m stored = .error (.valueError msg) := by
    simp [validate_password, hdec, hmsg]
  refine ⟨hval, ?_⟩
  intro st
  simp [login, hval]

/-- Witness for C10: a stored verification value that is not valid hex raises its
ValueError through validate_password and login. -/
theorem claim_C10_witness :
    decrypt_secret_value toyPrims { password := some [7] } "HummingBot"
      (.malformed "Non-hexadecimal digit found") =
      .error (.valueError "Non-hexadecimal digit found") ∧
    validate_password toyPrims { password := some [7] }
      (.malformed "Non-hexadecimal digit found") =
      .error (.valueError "Non-hexadecimal digit found") ∧
    login toyPrims previousPassState { password := some [7] }
      (.malformed "Non-hexadecimal digit found") =
      .error (.valueError "Non-hexadecimal digit found") :=
  ⟨by decide,
   (claim_C10 toyPrims { password := some [7] }
     (.malformed "Non-hexadecimal digit found") "Non-hexadecimal digit found"
     (by decide) (by decide)).1,
   (claim_C10 toyPrims { password := some [7] }
     (.malformed "Non-hexadecimal digit found") "Non-hexadecimal digit found"
     (by decide) (by decide)).2 previousPassState⟩

/-! ## Claims about the vault accessors -/

/-- Counterexample to C8: the vault's read accessor `decrypted_value` hands out the
cached bundle reference itself, not a copy — mutating the bundle through the returned
reference changes what the vault's cache subsequently reports. -/
theorem claim_C8_counterexample :
    decrypted_value oneEntryState "binance" = some 0 ∧
    secrets_for_value oneEntryState oneEntryHeap "binance" =
      some [("binance_api_key", "AAA")] ∧
    secrets_for_value oneEntryState
        (heap_write oneEntryHeap 0 [("binance_api_key", "BBB")]) "binance" ≠
      secrets_for_value oneEntryState oneEntryHeap "binance" := by
  refine ⟨by decide, by decide, by decide⟩

/-- C8 amended: `all_decrypted_values` returns a fresh mapping container, but one that
holds the very same bundle references as the cache, and `decrypted_value` returns the
cached reference itself; consequently a mutation performed through a reference
returned by `decrypted_value` is what the vault reports afterwards (the returned value
is live, not a copy). -/
theorem claim_C8_amended (st : SecurityState) (h : Heap) (key : String) (r : Nat)
    (b : Bundle) (hr : decrypted_value st key = some r) :
    all_decrypted_values st = st.secure_configs ∧
    assoc_find key (all_decrypted_values st) = some r ∧
    secrets_for_value st (heap_write h r b) key = some b := by
  refine ⟨rfl, hr, ?_⟩
  simp [secrets_for_value, hr, heap_get, heap_write, assoc_find_set_self]

/-- Witness for C8 amended at the concrete one-entry vault state. -/
theorem claim_C8_witness :
    decrypted_value oneEntryState "binance" = some 0 ∧
    secrets_for_value oneEntryState
      (heap_write oneEntryHeap 0 [("binance_api_key", "BBB")]) "binance" =
      some [("binance_api_key", "BBB")] :=
  ⟨by decide,
   (claim_C8_amended oneEntryState oneEntryHeap "binance" 0
     [("binance_api_key", "BBB")] (by decide)).2.2⟩

/-- Counterexample to C9: with the connector absent from both the disk and the
in-memory cache, `remove_secure_config` does not return without error — the
`pop(connector_name)` with no default raises KeyError — contradicting the claim that
the absent-file case completes with no error. -/
theorem claim_C9_counterexample :
    (remove_secure_config diskBinanceOnly previousPassState "kraken").2.2 =
      some (.keyError "kraken") := by
  decide

/-- C9 amended: when the connector has an entry in the in-memory cache,
`remove_secure_config` deletes the on-disk secret file (tolerating the case where the
file is already absent), evicts the cache entry (for the well-formed cache whose keys
are unique), and returns without error; when the cache entry is absent it raises
KeyError after having deleted the file. -/
theorem claim_C9_amended (d : Disk) (st : SecurityState) (connector_name : String)
    (r : Nat) (hfind : assoc_find connector_name st.secure_configs = some r)
    (hnd : (st.secure_configs.map Prod.fst).Nodup) :
    (remove_secure_config d st connector_name).2.2 = none ∧
    connector_name ∉ (remove_secure_config d st connector_name).1.files ∧
    assoc_find connector_name
      (remove_secure_config d st connector_name).2.1.secure_configs = none := by
  refine ⟨?_, ?_, ?_⟩
  · simp [remove_secure_config, hfind]
  · simp [remove_secure_config, hfind, List.mem_filter]
  · simp [remove_secure_config, hfind, assoc_find_erase_self _ _ hnd]

/-- Witness for C9 amended: removing binance with its file already absent from disk
and its entry present in the cache completes with no error and evicts the entry. -/
theorem claim_C9_witness :
    assoc_find "binance" oneEntryState.secure_configs = some 0 ∧
    "binance" ∉ (Disk.files { files := [] }) ∧
    (remove_secure_config { files := [] } oneEntryState "binance").2.2 = none ∧
    assoc_find "binance"
      (remove_secure_config { files := [] } oneEntryState "binance").2.1.secure_configs
      = none :=
  ⟨by decide, by decide,
   (claim_C9_amended { files := [] } oneEntryState "binance" 0 (by decide)
     (by decide)).1,
   (claim_C9_amended { files := [] } oneEntryState "binance" 0 (by decide)
     (by decide)).2.2⟩

/-! ## Claims about decrypt_all -/

theorem decrypt_all_loop_error (pre : List ConnectorFile) (f : ConnectorFile)
    (post : List ConnectorFile) (e : PyError) :
    ∀ (st : SecurityState) (h : Heap),
    (∀ g ∈ pre, ∃ b, g.load_result = .ok b) → f.load_result = .error e →
    ∃ st2 h2, decrypt_all_loop (pre ++ f :: post) st h = (st2, h2, some e) ∧
      st2.decryption_done = st.decryption_done ∧
      (∀ name, name ∉ pre.map ConnectorFile.connector_name →
        assoc_find name st2.secure_configs = assoc_find name st.secure_configs) := by
  induction pre with
  | nil =>
    intro st h _ hf
    refine ⟨st, h, ?_, rfl, fun name _ => rfl⟩
    simp [decrypt_all_loop, decrypt_connector_config, hf]
  | cons g pre ih =>
    intro st h hpre hf
    obtain ⟨b, hb⟩ := hpre g (List.mem_cons_self g pre)
    have hg : decrypt_connector_config st h g =
        .ok ({ st with secure_configs :=
                 assoc_set st.secure_configs g.connector_name h.next },
             { store := assoc_set h.store h.next b, next := h.next + 1 }) := by
      simp [decrypt_connector_config, hb]
    obtain ⟨st3, h3, hloop, hdone, hfind⟩ :=
      ih ({ st with secure_configs :=
              assoc_set st.secure_configs g.connector_name h.next })
         ({ store := assoc_set h.store h.next b, next := h.next + 1 })
         (fun g2 hg2 => hpre g2 (List.mem_cons_of_mem g hg2)) hf
    refine ⟨st3, h3, ?_, hdone, ?_⟩
    · simp only [List.cons_append, decrypt_all_loop, hg]
      exact hloop
    · intro name hn
      simp only [List.map_cons, List.mem_cons, not_or] at hn
      exact (hfind name hn.2).trans
        (assoc_find_set_ne st.secure_configs g.connector_name name h.next hn.1)

/-- Counterexample to C1: with three enumerated connector files of which the second
fails to decrypt, `decrypt_all` does not continue over the remaining files — the
exception aborts the pass, the third connector is never decrypted, the completion
signal is left unset, and the entry decrypted before the failure stays behind. -/
theorem claim_C1_counterexample :
    (decrypt_all [fileBinance, fileKrakenBad, fileOkx] previousPassState
      previousPassHeap).2.2 = some (.valueError "MAC mismatch") ∧
    (decrypt_all [fileBinance, fileKrakenBad, fileOkx] previousPassState
      previousPassHeap).1.decryption_done = false ∧
    assoc_find "okx" (decrypt_all [fileBinance, fileKrakenBad, fileOkx]
      previousPassState previousPassHeap).1.secure_configs = none ∧
    assoc_find "binance" (decrypt_all [fileBinance, fileKrakenBad, fileOkx]
      previousPassState previousPassHeap).1.secure_configs = some 6 := by
  refine ⟨by decide, by decide, by decide, by decide⟩

/-- C1 amended: if decrypting one connector secret file raises during `decrypt_all`,
the exception propagates and aborts the pass — files after the failing one are not
processed, every connector not decrypted before the failure is absent from the cache,
and the completion signal is not set. -/
theorem claim_C1_amended (pre post : List ConnectorFile) (f : ConnectorFile)
    (e : PyError) (st : SecurityState) (h : Heap)
    (hpre : ∀ g ∈ pre, ∃ b, g.load_result = .ok b)
    (hf : f.load_result = .error e) :
    (decrypt_all (pre ++ f :: post) st h).2.2 = some e ∧
    (decrypt_all (pre ++ f :: post) st h).1.decryption_done = false ∧
    ∀ name, name ∉ pre.map ConnectorFile.connector_name →
      assoc_find name (decrypt_all (pre ++ f :: post) st h).1.secure_configs
        = none := by
  obtain ⟨st2, h2, hloop, hdone, hfind⟩ :=
    decrypt_all_loop_error pre f post e
      { st with secure_configs := [], decryption_done := false } h hpre hf
  have hda : decrypt_all (pre ++ f :: post) st h = (st2, h2, some e) := by
    simp only [decrypt_all, hloop]
  refine ⟨by simp [hda], by simp [hda, hdone], ?_⟩
  intro name hn
  have := hfind name hn
  simp only [assoc_find] at this
  simp [hda, this]

/-- Witness for C1 amended at the concrete three-file enumeration. -/
theorem claim_C1_witness :
    (decrypt_all ([fileBinance] ++ fileKrakenBad :: [fileOkx]) previousPassState
      previousPassHeap).2.2 = some (.valueError "MAC mismatch") ∧
    (decrypt_all ([fileBinance] ++ fileKrakenBad :: [fileOkx]) previousPassState
      previousPassHeap).1.decryption_done = false ∧
    assoc_find "okx" (decrypt_all ([fileBinance] ++ fileKrakenBad :: [fileOkx])
      previousPassState previousPassHeap).1.secure_configs = none := by
  have h := claim_C1_amended [fileBinance] [fileOkx] fileKrakenBad
    (.valueError "MAC mismatch") previousPassState previousPassHeap
    (by
      intro g hg
      simp only [List.mem_singleton] at hg
      subst hg
      exact ⟨[("binance_api_key", "A")], rfl⟩)
    rfl
  exact ⟨h.1, h.2.1, h.2.2 "okx" (by decide)⟩

/-! ## Round-trip claim -/

/-- C3: encrypt/decrypt round-trip — for every plaintext, password and randomness,
decrypting the envelope produced by `encrypt_secret_value` with the same password
returns exactly the plaintext, for every instantiation of the primitives whose stream
cipher is self-inverse (the defining property of AES-CTR). -/
theorem claim_C3 (P : CryptoPrims) (m : ETHKeyFileSecretManger) (pw : Bytes)
    (attr : String) (value salt iv_bytes : Bytes)
    (hpw : m.password = some pw)
    (hinv : ∀ (message key : Bytes) (iv : Nat),
      P.decrypt_aes_ctr (P.encrypt_aes_ctr message key iv) key iv = message) :
    ∃ sv, encrypt_secret_value P m attr value salt iv_bytes = .ok sv ∧
      decrypt_secret_value P m attr sv = .ok value := by
  simp only [encrypt_secret_value, hpw, get_default_work_factor_for_kdf,
    create_v3_keyfile_json, if_pos rfl]
  refine ⟨_, rfl, ?_⟩
  simp only [decrypt_secret_value, hpw, account_decrypt, derive_keyfile_key,
    if_pos rfl]
  simp [hinv]

/-- The toy stream cipher is self-inverse. -/
theorem toy_aes_roundtrip : ∀ (message key : Bytes) (iv : Nat),
    toyPrims.decrypt_aes_ctr (toyPrims.encrypt_aes_ctr message key iv) key iv
      = message := by
  intro message key iv
  simp [toyPrims, List.map_map, Function.comp_def, Nat.add_sub_cancel]

/-- Witness for C3 at concrete plaintext, password and randomness under the toy
primitives. -/
theorem claim_C3_witness :
    ∃ sv, encrypt_secret_value toyPrims { password := some [7, 8] } "api_key"
        [1, 2, 3] [5] [6] = .ok sv ∧
      decrypt_secret_value toyPrims { password := some [7, 8] } "api_key" sv
        = .ok [1, 2, 3] :=
  claim_C3 toyPrims { password := some [7, 8] } [7, 8] "api_key" [1, 2, 3] [5] [6]
    rfl toy_aes_roundtrip

/-! ## Claims about construction parameters -/

theorem dict_fold_find_no_key {α β : Type} [DecidableEq α] (l : List (α × β))
    (acc : List (α × β)) (k : α) (h : k ∉ l.map Prod.fst) :
    assoc_find k (l.foldl (fun acc kv => assoc_set acc kv.1 kv.2) acc)
      = assoc_find k acc := by
  induction l generalizing acc with
  | nil => rfl
  | cons kv rest ih =>
    simp only [List.map_cons, List.mem_cons, not_or] at h
    simp only [List.foldl_cons]
    rw [ih _ h.2, assoc_find_set_ne _ _ _ _ h.1]

theorem dict_fold_find_mem {α β : Type} [DecidableEq α] (l : List (α × β))
    (acc : List (α × β)) (k : α) (v : β) (hnd : (l.map Prod.fst).Nodup)
    (hmem : (k, v) ∈ l) :
    assoc_find k (l.foldl (fun acc kv => assoc_set acc kv.1 kv.2) acc)
      = some v := by
  induction l generalizing acc with
  | nil => cases hmem
  | cons kv rest ih =>
    obtain ⟨k1, v1⟩ := kv
    simp only [List.map_cons, List.nodup_cons] at hnd
    rcases List.mem_cons.mp hmem with heq | hmem2
    · obtain ⟨hk, hv⟩ := Prod.mk.injEq .. ▸ heq
      subst hk
      subst hv
      simp only [List.foldl_cons]
      rw [dict_fold_find_no_key rest _ k hnd.1, assoc_find_set_self]
    · exact ih _ hnd.2 hmem2

theorem find_add_connector_configuration (ck : Option ConfigKeysVal) (p : Params)
    (k : String) (hk : k ≠ "connector_configuration") :
    assoc_find k (add_connector_configuration ck p) = assoc_find k p := by
  rcases ck with _ | ck
  · rfl
  rcases ck with entries | ⟨b1, b2⟩
  · rfl
  cases b1 <;> cases b2 <;>
    simp [add_connector_configuration, assoc_find_set_ne _ _ _ _ hk]

/-- C5: for a sub-domain connector descriptor, `conn_init_parameters` renames each
secret key by replacing the sub-domain connector name with the parent connector's
name, adds a `domain` parameter equal to the descriptor's `domain_parameter`, and
carries each renamed key's value over unchanged (provided the renamed keys do not
collide with each other or with the parameters the method itself adds). -/
theorem claim_C5 (cs : ConnectorSetting) (parent : String)
    (trading_pairs : List String) (trading_required : Bool) (api_keys : Params)
    (hgw : uses_gateway_generic_connector cs = false)
    (hsub : cs.is_sub_domain = true)
    (hpar : cs.parent_name = some parent)
    (hnodup : (api_keys.map (fun kv => str_replace kv.1 cs.name parent)).Nodup)
    (hres : ∀ kv ∈ api_keys, str_replace kv.1 cs.name parent ∉
        (["domain", "trading_pairs", "trading_required", "client_config_map",
          "connector_configuration"] : List String)) :
    ∃ params, conn_init_parameters cs trading_pairs trading_required api_keys
        = some params ∧
      assoc_find "domain" params = some (.domainVal cs.domain_parameter) ∧
      ∀ kv ∈ api_keys, assoc_find (str_replace kv.1 cs.name parent) params
        = some kv.2 := by
  simp only [conn_init_parameters, hgw, hsub, hpar, Bool.false_eq_true, if_false,
    not_true, ite_false]
  refine ⟨_, rfl, ?_, ?_⟩
  · rw [find_add_connector_configuration _ _ _ (by decide),
      assoc_find_set_ne _ _ _ _ (by decide), assoc_find_set_ne _ _ _ _ (by decide),
      assoc_find_set_ne _ _ _ _ (by decide), assoc_find_set_self]
  · intro kv hkv
    have hr := hres kv hkv
    simp only [List.mem_cons, List.not_mem_nil, or_false, not_or] at hr
    obtain ⟨h1, h2, h3, h4, h5⟩ := hr
    rw [find_add_connector_configuration _ _ _ h5,
      assoc_find_set_ne _ _ _ _ h4, assoc_find_set_ne _ _ _ _ h3,
      assoc_find_set_ne _ _ _ _ h2, assoc_find_set_ne _ _ _ _ h1]
    have hmem : (str_replace kv.1 cs.name parent, kv.2) ∈
        api_keys.map (fun kv => (str_replace kv.1 cs.name parent, kv.2)) :=
      List.mem_map_of_mem _ hkv
    have hnd2 : ((api_keys.map
        (fun kv => (str_replace kv.1 cs.name parent, kv.2))).map Prod.fst).Nodup := by
      rw [List.map_map]
      exact hnodup
    exact dict_fold_find_mem _ _ _ _ hnd2 hmem

/-- Witness for C5 at the concrete binance_us sub-domain setting. -/
theorem claim_C5_witness :
    ∃ params, conn_init_parameters binanceUsSetting ["BTC-USD"] true
        [("binance_us_api_key", .secret "k1"),
         ("binance_us_api_secret", .secret "k2")] = some params ∧
      assoc_find "domain" params = some (.domainVal (some "us")) ∧
      ∀ kv ∈ ([("binance_us_api_key", PVal.secret "k1"),
               ("binance_us_api_secret", PVal.secret "k2")] : Params),
        assoc_find (str_replace kv.1 binanceUsSetting.name "binance") params
          = some kv.2 :=
  claim_C5 binanceUsSetting "binance" ["BTC-USD"] true
    [("binance_us_api_key", .secret "k1"), ("binance_us_api_secret", .secret "k2")]
    (by decide) (by decide) (by decide) (by decide) (by decide)

/-! ## Claims about sub-domain discovery -/

theorem validate_trade_fee_schema_name_irrel (a b : String)
    (x : Option FeeSetting) :
    validate_trade_fee_schema a x = validate_trade_fee_schema b x := by
  rcases x with _ | x
  · rfl
  rcases x with ⟨mk, tk⟩ | s <;> rfl

theorem add_other_domains_find_preserved (u : UtilModule) (cn : String)
    (doms : List String) : ∀ (settings out : SettingsMap) (k : String),
    add_other_domains u cn doms settings = .ok out → k ∉ doms →
    assoc_find k out = assoc_find k settings := by
  induction doms with
  | nil =>
    intro settings out k hok _
    simp only [add_other_domains] at hok
    cases hok
    rfl
  | cons d rest ih =>
    intro settings out k hok hk
    simp only [List.mem_cons, not_or] at hk
    rcases hfee : assoc_find d u.OTHER_DOMAINS_DEFAULT_FEES with _ | f0
    · simp [add_other_domains, hfee] at hok
    rcases hpar : assoc_find cn settings with _ | par0
    · simp [add_other_domains, hfee, hpar] at hok
    rcases hep : assoc_find d u.OTHER_DOMAINS_EXAMPLE_PAIR with _ | ep
    · simp [add_other_domains, hfee, hpar, hep] at hok
    rcases hkeys : assoc_find d u.OTHER_DOMAINS_KEYS with _ | keys
    · simp [add_other_domains, hfee, hpar, hep, hkeys] at hok
    rcases hdp : assoc_find d u.OTHER_DOMAINS_PARAMETER with _ | dp
    · simp [add_other_domains, hfee, hpar, hep, hkeys, hdp] at hok
    simp only [add_other_domains, hfee, hpar, hep, hkeys, hdp] at hok
    rw [ih _ _ _ hok hk.2, assoc_find_set_ne _ _ _ _ hk.1]

theorem add_other_domains_sub (u : UtilModule) (cn : String)
    (doms : List String) : ∀ (settings out : SettingsMap) (domain : String)
    (par : ConnectorSetting),
    add_other_domains u cn doms settings = .ok out → cn ∉ doms → domain ∈ doms →
    assoc_find cn settings = some par →
    ∃ sub f, assoc_find domain out = some sub ∧
      assoc_find domain u.OTHER_DOMAINS_DEFAULT_FEES = some f ∧
      sub.is_sub_domain = true ∧
      sub.parent_name = some par.name ∧
      sub.type = par.type ∧
      sub.centralised = par.centralised ∧
      sub.use_ethereum_wallet = par.use_ethereum_wallet ∧
      sub.use_eth_gas_lookup = par.use_eth_gas_lookup ∧
      sub.trade_fee_schema = validate_trade_fee_schema domain (some f) := by
  induction doms with
  | nil =>
    intro settings out domain par _ _ hdom _
    cases hdom
  | cons d rest ih =>
    intro settings out domain par hok hcn hdom hfindcn
    simp only [List.mem_cons, not_or] at hcn
    rcases hfee : assoc_find d u.OTHER_DOMAINS_DEFAULT_FEES with _ | f0
    · simp [add_other_domains, hfee] at hok
    rcases hep : assoc_find d u.OTHER_DOMAINS_EXAMPLE_PAIR with _ | ep
    · simp [add_other_domains, hfee, hfindcn, hep] at hok
    rcases hkeys : assoc_find d u.OTHER_DOMAINS_KEYS with _ | keys
    · simp [add_other_domains, hfee, hfindcn, hep, hkeys] at hok
    rcases hdp : assoc_find d u.OTHER_DOMAINS_PARAMETER with _ | dp
    · simp [add_other_domains, hfee, hfindcn, hep, hkeys, hdp] at hok
    simp only [add_other_domains, hfee, hfindcn, hep, hkeys, hdp] at hok
    have hpreserved : assoc_find cn (assoc_set settings d
        { name := d, type := par.type, centralised := par.centralised,
          example_pair := ep, use_ethereum_wallet := par.use_ethereum_wallet,
          trade_fee_schema := validate_trade_fee_schema d (some f0),
          config_keys := keys, is_sub_domain := true, parent_name := some par.name,
          domain_parameter := some dp,
          use_eth_gas_lookup := par.use_eth_gas_lookup }) = some par := by
      rw [assoc_find_set_ne _ _ _ _ hcn.1]
      exact hfindcn
    rcases List.mem_cons.mp hdom with heq | hdom2
    · subst heq
      by_cases hd : domain ∈ rest
      · exact ih _ _ _ _ hok hcn.2 hd hpreserved
      · have hfind := add_other_domains_find_preserved u cn rest _ _ domain hok hd
        rw [assoc_find_set_self] at hfind
        exact ⟨_, f0, hfind, hfee, rfl, rfl, rfl, rfl, rfl, rfl, rfl⟩
    · exact ih _ _ _ _ hok hcn.2 hdom2 hpreserved

/-- C6: every sub-domain registry entry created from a parent's declared other-domains
list always carries the parent's type, centralised flag and wallet-usage flag, and —
when the parent does not explicitly override the domain's fees (its per-domain fee
declaration equals its own DEFAULT_FEES declaration) — the same fee schema as the
parent. -/
theorem claim_C6 (settings0 : SettingsMap) (type_dir : ConnectorType)
    (connector_name : String) (u : UtilModule) (domain : String) (out : SettingsMap)
    (hok : create_settings_for_module settings0 type_dir connector_name u = .ok out)
    (hdom : domain ∈ u.OTHER_DOMAINS)
    (hname : connector_name ∉ u.OTHER_DOMAINS) :
    ∃ sub par, assoc_find domain out = some sub ∧
      assoc_find connector_name out = some par ∧
      sub.is_sub_domain = true ∧
      sub.parent_name = some connector_name ∧
      sub.type = par.type ∧
      sub.centralised = par.centralised ∧
      sub.use_ethereum_wallet = par.use_ethereum_wallet ∧
      (∀ f, assoc_find domain u.OTHER_DOMAINS_DEFAULT_FEES = some f →
        u.DEFAULT_FEES = some f →
        sub.trade_fee_schema = par.trade_fee_schema) := by
  rcases hfind0 : assoc_find connector_name settings0 with _ | s0
  swap
  · simp [create_settings_for_module, hfind0] at hok
  simp only [create_settings_for_module, hfind0, Option.isSome_none,
    Bool.false_eq_true, if_false] at hok
  obtain ⟨sub, f, hsubfind, hfee, hsubd, hparn, htype, hcent, hwallet, hgas, hfs⟩ :=
    add_other_domains_sub u connector_name u.OTHER_DOMAINS _ out domain _ hok hname
      hdom (assoc_find_set_self settings0 connector_name _)
  have houtpar := add_other_domains_find_preserved u connector_name
    u.OTHER_DOMAINS _ out connector_name hok hname
  rw [assoc_find_set_self] at houtpar
  refine ⟨sub, _, hsubfind, houtpar, hsubd, hparn, htype, hcent, hwallet, ?_⟩
  intro f2 hf2 hdf
  rw [hfee] at hf2
  cases hf2
  rw [hfs]
  show validate_trade_fee_schema domain (some f) =
    validate_trade_fee_schema connector_name u.DEFAULT_FEES
  rw [hdf, validate_trade_fee_schema_name_irrel domain connector_name]

/-- Witness for C6 at the concrete binance util module with no fee override. -/
theorem claim_C6_witness :
    ∃ out, create_settings_for_module [] .Exchange "binance" binanceUtilModule
        = .ok out ∧
      ∃ sub par, assoc_find "binance_us" out = some sub ∧
        assoc_find "binance" out = some par ∧
        sub.is_sub_domain = true ∧
        sub.parent_name = some "binance" ∧
        sub.type = par.type ∧
        sub.centralised = par.centralised ∧
        sub.use_ethereum_wallet = par.use_ethereum_wallet ∧
        sub.trade_fee_schema = par.trade_fee_schema := by
  obtain ⟨sub, par, h1, h2, h3, h4, h5, h6, h7, h8⟩ :=
    claim_C6 [] .Exchange "binance" binanceUtilModule "binance_us" _ rfl
      (by decide) (by decide)
  exact ⟨_, rfl, sub, par, h1, h2, h3, h4, h5, h6, h7,
    h8 (.legacy { mant := 1, exp := 1 } { mant := 1, exp := 1 }) (by decide)
      (by decide)⟩
